import Mathlib

/-!
Shallow embedding of `src/vs/workbench/contrib/webview/electron-browser/webviewEditorService.ts`
(the `WebviewEditorService` class).

Modelling conventions:
* A `WebviewEditorInput` (panel handle) is identified by a numeric `pid`
  (JavaScript object identity); `group` is the `webview.group` field
  (`GroupIdentifier | undefined` becomes `Option Nat`).
* A `WebviewReviver` is identified by a numeric `rid` (object identity) and
  carries its `canRevive` capability check as a Lean function; its
  asynchronous `reviveWebview` reconstruction is modelled as an emitted
  `Effect`, not executed.
* The JS `Set` `_revivers` is insertion-ordered with identity-based
  membership: a `List Reviver` with add-if-absent by `rid`; `values(set)`
  iteration is list order.
* `_awaitingRevival` is the list of `(input, resolve)` records; the `resolve`
  closure is modelled by a numeric `resolveId` naming the completion signal.
* Calls into the collaborators (`_editorService.openEditor`,
  `groupView.moveEditor`, dispatching a reviver's reconstruction) are recorded
  as `Effect` values in the order the code issues them.
-/

/-- Panel handle: `WebviewEditorInput`. `pid` models object identity,
`group` the mutable `group` attribute (`undefined` = `none`). -/
structure WebviewEditorInput where
  pid : Nat
  viewType : String
  title : String
  group : Option Nat
deriving DecidableEq

/-- A registered reviver: `rid` models object identity; `canRevive` is its
capability check (a pure predicate on the panel). -/
structure Reviver where
  rid : Nat
  canRevive : WebviewEditorInput → Bool

/-- A pending revival entry of `_awaitingRevival`: the panel together with the
identifier of its completion signal (the `resolve` closure). -/
structure AwaitingRevival where
  input : WebviewEditorInput
  resolveId : Nat
deriving DecidableEq

/-- The symbolic group argument passed to `openEditor`
(`IEditorGroup | GroupIdentifier | ACTIVE_GROUP | SIDE_GROUP`). -/
inductive GroupArg where
  | activeGroup : GroupArg
  | sideGroup : GroupArg
  | byId : Nat → GroupArg
deriving DecidableEq

/-- An observable call into a collaborator, in issue order.
`openEditor` records the display request (`pinned` is `none` when the options
object leaves it unspecified); `moveEditor` records
`groupView.moveEditor(input, targetGroup, opts)` where `groupView` is the view
the call is made on; `queueDispatch` records
`reviver.reviveWebview(input.input).then(() => input.resolve(undefined))`
issued from `registerReviver` (the reviver `rid`, the panel, and the
completion signal resolved when the reconstruction completes);
`awaitRevive` records the awaited `reviver.reviveWebview(webview)` inside
`tryRevive`. -/
inductive Effect where
  | openEditor : WebviewEditorInput → Option Bool → Bool → GroupArg → Effect
  | moveEditor : Nat → WebviewEditorInput → Nat → Bool → Effect
  | queueDispatch : Nat → WebviewEditorInput → Nat → Effect
  | awaitRevive : Nat → WebviewEditorInput → Effect
deriving DecidableEq

/-- The mutable state of the service: `_revivers` (insertion-ordered set) and
`_awaitingRevival` (the revival queue). -/
structure ServiceState where
  revivers : List Reviver
  awaitingRevival : List AwaitingRevival

/-- `IEditorGroup`: only its `id` is consulted by this code. -/
structure IEditorGroup where
  id : Nat
deriving DecidableEq

/-- `createWebview`: constructs the input via the instantiation collaborator
(`freshPid` models the fresh object identity), issues one
`openEditor(input, \x7b pinned: true, preserveFocus \x7d, showOptions.group)`
call whose completion is not awaited, and returns the handle. It reads and
writes neither `_revivers` nor `_awaitingRevival`, so the state is returned
unchanged. -/
def createWebview (s : ServiceState) (viewType : String) (title : String)
    (showGroup : GroupArg) (preserveFocus : Bool) (freshPid : Nat) :
    WebviewEditorInput × List Effect × ServiceState :=
  let webviewInput : WebviewEditorInput :=
    { pid := freshPid, viewType := viewType, title := title, group := none }
  (webviewInput,
   [Effect.openEditor webviewInput (some true) preserveFocus showGroup],
   s)

/-- `revealWebview(webview, group, preserveFocus)`: when the panel's `group`
already equals the target's `id`, re-issues
`openEditor(webview, \x7b preserveFocus \x7d, webview.group)`; otherwise looks up
`_editorGroupService.getGroup(webview.group!)` — the view of the panel's
CURRENT group — and, when found, calls
`groupView.moveEditor(webview, group, \x7b preserveFocus \x7d)`; when the lookup
fails nothing happens. `getGroup` is the group-service collaborator, mapping a
group identifier to the identity of its live view when one exists. -/
def revealWebview (getGroup : Nat → Option Nat) (webview : WebviewEditorInput)
    (group : IEditorGroup) (preserveFocus : Bool) : List Effect :=
  if webview.group = some group.id then
    [Effect.openEditor webview none preserveFocus (GroupArg.byId group.id)]
  else
    match webview.group with
    | none => []
    | some g =>
      match getGroup g with
      | none => []
      | some groupView => [Effect.moveEditor groupView webview group.id preserveFocus]

/-- The `for (const reviver of values(this._revivers))` loop of `canRevive`:
returns `true` at the first reviver whose capability check accepts the panel,
`false` when the iteration completes without a match. -/
def canReviveList : List Reviver → WebviewEditorInput → Bool
  | [], _ => false
  | r :: rest, webview =>
    if r.canRevive webview then true else canReviveList rest webview

/-- `canRevive(webview)`: a pure query over the registry. -/
def WebviewEditorService.canRevive (s : ServiceState) (webview : WebviewEditorInput) : Bool :=
  canReviveList s.revivers webview

/-- The loop of `tryRevive`: at the first reviver accepting the panel, awaits
its reconstruction (recorded as `Effect.awaitRevive`) and returns `true`;
returns `false` with no effect when none accepts. -/
def tryReviveList : List Reviver → WebviewEditorInput → Bool × List Effect
  | [], _ => (false, [])
  | r :: rest, webview =>
    if r.canRevive webview then (true, [Effect.awaitRevive r.rid webview])
    else tryReviveList rest webview

/-- `tryRevive(webview)`: reads only `_revivers`; the state passes through
unchanged. -/
def WebviewEditorService.tryRevive (s : ServiceState) (webview : WebviewEditorInput) :
    Bool × List Effect × ServiceState :=
  let r := tryReviveList s.revivers webview
  (r.1, r.2, s)

/-- `registerReviver(reviver)`: adds the reviver to the `_revivers` set
(no-op when already present by identity), then filters `_awaitingRevival`
twice — once for the entries the new reviver can revive (`toRevive`), once for
those it cannot (the new queue) — and dispatches
`reviver.reviveWebview(input.input).then(() => input.resolve(undefined))` for
each element of `toRevive` in queue order. -/
def registerReviver (s : ServiceState) (reviver : Reviver) :
    ServiceState × List Effect :=
  let revivers := if s.revivers.any (fun r0 => r0.rid == reviver.rid)
    then s.revivers else s.revivers ++ [reviver]
  let toRevive := s.awaitingRevival.filter (fun x => reviver.canRevive x.input)
  let remaining := s.awaitingRevival.filter (fun x => !(reviver.canRevive x.input))
  ({ revivers := revivers, awaitingRevival := remaining },
   toRevive.map (fun x => Effect.queueDispatch reviver.rid x.input x.resolveId))

/-- The disposable returned by `registerReviver`:
`toDisposable(() => this._revivers.delete(reviver))`. `Set.delete` removes by
identity and touches nothing else. -/
def disposeReviver (s : ServiceState) (reviver : Reviver) : ServiceState :=
  { s with revivers := s.revivers.filter (fun r0 => !(r0.rid == reviver.rid)) }

/-- The deferred-population callback wired into `RevivedWebviewEditorInput` by
`reviveWebview`: first `await this.tryRevive(webview)`; on success, done; on
failure, pushes `(webview, resolve)` onto `_awaitingRevival`, where
`freshResolveId` models the fresh `resolve` closure of the new promise.
Returns the new state, the effects issued, and `didRevive`. -/
def reviveCallback (s : ServiceState) (webview : WebviewEditorInput)
    (freshResolveId : Nat) : ServiceState × List Effect × Bool :=
  let r := tryReviveList s.revivers webview
  if r.1 then (s, r.2, true)
  else ({ s with
          awaitingRevival := s.awaitingRevival ++ [⟨webview, freshResolveId⟩] },
        r.2, false)

/-- The behaviour the specification ascribes to `revealWebview` for a panel
not already in the target group: resolve the TARGET group's live view via the
group service, move the panel there when the view is found, and do nothing
when it is not. Written from the spec's words, for comparison with
`revealWebview`, which resolves the panel's CURRENT group instead. -/
def revealViaTargetGroupClaim (getGroup : Nat → Option Nat)
    (webview : WebviewEditorInput) (group : IEditorGroup)
    (preserveFocus : Bool) : Prop :=
  webview.group ≠ some group.id →
    revealWebview getGroup webview group preserveFocus =
      (match getGroup group.id with
       | some groupView =>
           [Effect.moveEditor groupView webview group.id preserveFocus]
       | none => [])

/-- Recognises a from-queue reconstruction dispatch for the panel with
identity `p`. -/
def isDispatchForPanel (p : Nat) : Effect → Bool
  | Effect.queueDispatch _ inp _ => inp.pid == p
  | _ => false

/-- Recognises a `moveEditor` collaborator call. -/
def isMoveEffect : Effect → Bool
  | Effect.moveEditor _ _ _ _ => true
  | _ => false

/-- How many entries of the revival queue belong to the panel with
identity `p`. -/
def queueCount (q : List AwaitingRevival) (p : Nat) : Nat :=
  q.countP (fun e => e.input.pid == p)

/-- How many from-queue reconstruction dispatches for the panel with identity
`p` a trace of collaborator calls contains. -/
def dispatchCount (t : List Effect) (p : Nat) : Nat :=
  t.countP (isDispatchForPanel p)

/-- A whole-system configuration: the service state, the set of panel
identities whose deferred-population callback has already run (the external
panel machinery invokes that callback at most once per input), and the
accumulated trace of collaborator calls. -/
structure Sys where
  svc : ServiceState
  populated : List Nat
  trace : List Effect

/-- The service starts with an empty registry and an empty queue. -/
def initialSys : Sys := ⟨⟨[], []⟩, [], []⟩

/-- The states reachable by the service's public operations. The `populate`
step carries the external contract that a given panel's deferred-population
callback fires at most once. -/
inductive Reachable : Sys → Prop where
  | init : Reachable initialSys
  | register (σ : Sys) (r : Reviver) : Reachable σ →
      Reachable ⟨(registerReviver σ.svc r).1, σ.populated,
                 σ.trace ++ (registerReviver σ.svc r).2⟩
  | deregister (σ : Sys) (r : Reviver) : Reachable σ →
      Reachable ⟨disposeReviver σ.svc r, σ.populated, σ.trace⟩
  | populate (σ : Sys) (w : WebviewEditorInput) (rsv : Nat) : Reachable σ →
      w.pid ∉ σ.populated →
      Reachable ⟨(reviveCallback σ.svc w rsv).1, σ.populated ++ [w.pid],
                 σ.trace ++ (reviveCallback σ.svc w rsv).2.1⟩
  | create (σ : Sys) (vt ti : String) (g : GroupArg) (f : Bool) (pid : Nat) :
      Reachable σ →
      Reachable ⟨(createWebview σ.svc vt ti g f pid).2.2, σ.populated,
                 σ.trace ++ (createWebview σ.svc vt ti g f pid).2.1⟩
  | reveal (σ : Sys) (gg : Nat → Option Nat) (w : WebviewEditorInput)
      (G : IEditorGroup) (f : Bool) : Reachable σ →
      Reachable ⟨σ.svc, σ.populated, σ.trace ++ revealWebview gg w G f⟩

/-- Per-panel accounting invariant: a panel identity has at most one pending
queue entry plus from-queue dispatch in total, and any such activity implies
its callback has run. -/
def SysInv (σ : Sys) : Prop :=
  ∀ p : Nat,
    queueCount σ.svc.awaitingRevival p + dispatchCount σ.trace p ≤ 1 ∧
    (0 < queueCount σ.svc.awaitingRevival p + dispatchCount σ.trace p →
       p ∈ σ.populated)

/-- Example reviver accepting markdown-preview panels. -/
def mdReviver : Reviver := ⟨7, fun w => w.viewType == "markdown.preview"⟩

/-- Example reviver accepting only panels of another view type. -/
def otherReviver : Reviver := ⟨8, fun w => w.viewType == "other.type"⟩

/-- A second example reviver accepting markdown-preview panels, with a
distinct identity. -/
def mdReviverB : Reviver := ⟨9, fun w => w.viewType == "markdown.preview"⟩

/-- Example panel. -/
def mdPanel : WebviewEditorInput := ⟨1, "markdown.preview", "Preview", some 2⟩

/-- Example pending revival entry for `mdPanel`. -/
def mdEntry : AwaitingRevival := ⟨mdPanel, 11⟩

/-- Example service state: empty registry, `mdPanel` queued. -/
def exState : ServiceState := ⟨[], [mdEntry]⟩

/-! ## Helper lemmas -/

theorem canReviveList_eq_any (rs : List Reviver) (w : WebviewEditorInput) :
    canReviveList rs w = rs.any (fun r => r.canRevive w) := by
  induction rs with
  | nil => rfl
  | cons r rest ih =>
    cases h : r.canRevive w <;> simp [canReviveList, h, ih]

theorem tryReviveList_of_none (rs : List Reviver) (w : WebviewEditorInput)
    (h : ∀ r ∈ rs, r.canRevive w = false) : tryReviveList rs w = (false, []) := by
  induction rs with
  | nil => rfl
  | cons r rest ih =>
    have hr : r.canRevive w = false := h r (List.mem_cons_self r rest)
    simp only [tryReviveList, hr]
    exact ih fun r0 h0 => h r0 (List.mem_cons_of_mem r h0)

theorem tryReviveList_first (l₁ : List Reviver) (r : Reviver) (l₂ : List Reviver)
    (w : WebviewEditorInput) (h₁ : ∀ r0 ∈ l₁, r0.canRevive w = false)
    (hr : r.canRevive w = true) :
    tryReviveList (l₁ ++ r :: l₂) w = (true, [Effect.awaitRevive r.rid w]) := by
  induction l₁ with
  | nil => simp [tryReviveList, hr]
  | cons r0 rest ih =>
    have h0 : r0.canRevive w = false := h₁ r0 (List.mem_cons_self r0 rest)
    simp only [List.cons_append, tryReviveList, h0]
    simp only [Bool.false_eq_true, if_false]
    exact ih fun ra ha => h₁ ra (List.mem_cons_of_mem r0 ha)

theorem countP_bool_split (l : List α) (p q : α → Bool) :
    l.countP (fun a => p a && q a) + l.countP (fun a => p a && !(q a)) =
      l.countP p := by
  induction l with
  | nil => rfl
  | cons a t ih =>
    cases hp : p a <;> cases hq : q a <;>
      simp [List.countP_cons, hp, hq] <;> omega

/-! ## Claim theorems -/

/-- C4: `canRevive(panel)` returns `true` exactly when some currently
registered reviver's capability check accepts the panel; with an empty
registry it returns `false` regardless of the queue. The embedding of
`canRevive` is a pure function of the state, mirroring a method body that
performs no mutation. -/
theorem canRevive_iff_exists (s : ServiceState) (w : WebviewEditorInput) :
    (WebviewEditorService.canRevive s w = true ↔
      ∃ r ∈ s.revivers, r.canRevive w = true) ∧
    WebviewEditorService.canRevive ⟨[], s.awaitingRevival⟩ w = false := by
  constructor
  · rw [WebviewEditorService.canRevive, canReviveList_eq_any, List.any_eq_true]
  · rfl

/-- Closed instance of `canRevive_iff_exists`: one matching reviver yields
`true`; the empty registry yields `false`. -/
theorem canRevive_iff_exists_witness :
    WebviewEditorService.canRevive ⟨[mdReviver], [mdEntry]⟩ mdPanel = true ∧
    WebviewEditorService.canRevive ⟨[], [mdEntry]⟩ mdPanel = false :=
  ⟨(canRevive_iff_exists ⟨[mdReviver], [mdEntry]⟩ mdPanel).1.mpr
      ⟨mdReviver, by simp, by decide⟩,
   (canRevive_iff_exists ⟨[], [mdEntry]⟩ mdPanel).2⟩

/-- C9: `createWebview` returns the freshly constructed handle synchronously,
issues exactly one display request for it — pinned, with the given
preserve-focus flag and target group — and returns the service state (registry
and queue) unchanged. -/
theorem createWebview_spec (s : ServiceState) (vt ti : String) (g : GroupArg)
    (f : Bool) (pid : Nat) :
    (createWebview s vt ti g f pid).2.1 =
      [Effect.openEditor (createWebview s vt ti g f pid).1 (some true) f g] ∧
    (createWebview s vt ti g f pid).2.1.length = 1 ∧
    (createWebview s vt ti g f pid).2.2 = s ∧
    (createWebview s vt ti g f pid).1.viewType = vt ∧
    (createWebview s vt ti g f pid).1.title = ti :=
  ⟨rfl, rfl, rfl, rfl, rfl⟩

/-- Closed instance of `createWebview_spec` at a concrete call. -/
theorem createWebview_spec_witness :
    (createWebview exState "markdown.preview" "Preview"
        (GroupArg.activeGroup) true 3).2.1 =
      [Effect.openEditor
        (createWebview exState "markdown.preview" "Preview"
          (GroupArg.activeGroup) true 3).1 (some true) true
        (GroupArg.activeGroup)] ∧
    (createWebview exState "markdown.preview" "Preview"
        (GroupArg.activeGroup) true 3).2.2 = exState :=
  ⟨(createWebview_spec exState "markdown.preview" "Preview"
      (GroupArg.activeGroup) true 3).1,
   (createWebview_spec exState "markdown.preview" "Preview"
      (GroupArg.activeGroup) true 3).2.2.1⟩

/-- C7: when the panel's current group equals the target group,
`revealWebview` issues exactly one display request (with the given
preserve-focus flag, in the panel's current group) and no move request. -/
theorem revealWebview_sameGroup (gg : Nat → Option Nat)
    (w : WebviewEditorInput) (G : IEditorGroup) (f : Bool)
    (h : w.group = some G.id) :
    revealWebview gg w G f =
      [Effect.openEditor w none f (GroupArg.byId G.id)] ∧
    (revealWebview gg w G f).countP isMoveEffect = 0 ∧
    (revealWebview gg w G f).length = 1 := by
  have h1 : revealWebview gg w G f =
      [Effect.openEditor w none f (GroupArg.byId G.id)] := by
    simp [revealWebview, h]
  refine ⟨h1, ?_, by rw [h1]; rfl⟩
  rw [h1]
  simp [List.countP_cons, isMoveEffect]

/-- Closed instance of `revealWebview_sameGroup`: panel already in group 2. -/
theorem revealWebview_sameGroup_witness :
    revealWebview (fun _ => none) mdPanel ⟨2⟩ false =
      [Effect.openEditor mdPanel none false (GroupArg.byId 2)] ∧
    (revealWebview (fun _ => none) mdPanel ⟨2⟩ false).countP isMoveEffect = 0 ∧
    (revealWebview (fun _ => none) mdPanel ⟨2⟩ false).length = 1 :=
  revealWebview_sameGroup (fun _ => none) mdPanel ⟨2⟩ false rfl

/-- C2 fails on the code: with the target group's view resolvable but the
panel's current group's view not, the claim predicts a move, yet
`revealWebview` looks up the CURRENT group (`getGroup(webview.group!)`) and
does nothing. Concretely: the group service resolves only group 0 (to view
10), the panel sits in group 1, the target is group 0. -/
theorem revealWebview_targetClaim_counterexample :
    ¬ revealViaTargetGroupClaim (fun g => if g == 0 then some 10 else none)
        ⟨1, "vt", "t", some 1⟩ ⟨0⟩ true := by
  intro hcl
  have h := hcl (by simp)
  simp [revealWebview] at h

/-- C2 amended: for a panel whose current group differs from the target,
`revealWebview` resolves the view of the panel's CURRENT group via the group
service; when that view is found it asks it to move the panel into the target
group with the focus flag, and when the panel's current group (or its view)
cannot be resolved the operation is a silent no-op. -/
theorem revealWebview_movesViaCurrentGroup (gg : Nat → Option Nat)
    (w : WebviewEditorInput) (G : IEditorGroup) (f : Bool)
    (h : w.group ≠ some G.id) :
    (∃ g groupView, w.group = some g ∧ gg g = some groupView ∧
        revealWebview gg w G f = [Effect.moveEditor groupView w G.id f]) ∨
    (w.group.bind gg = none ∧ revealWebview gg w G f = []) := by
  unfold revealWebview
  rw [if_neg h]
  cases hg : w.group with
  | none => right; simp
  | some g =>
    cases hgv : gg g with
    | none => right; simp [hgv]
    | some gv => left; exact ⟨g, gv, rfl, hgv, by simp [hgv]⟩

/-- Closed instance of `revealWebview_movesViaCurrentGroup`: the panel sits in
group 2 whose view is 10; the target is group 0. -/
theorem revealWebview_movesViaCurrentGroup_witness :
    (∃ g groupView, mdPanel.group = some g ∧
        (if g == 2 then some 10 else none) = some groupView ∧
        revealWebview (fun g0 => if g0 == 2 then some 10 else none)
            mdPanel ⟨0⟩ true =
          [Effect.moveEditor groupView mdPanel 0 true]) ∨
    (mdPanel.group.bind (fun g0 => if g0 == 2 then some 10 else none) = none ∧
        revealWebview (fun g0 => if g0 == 2 then some 10 else none)
            mdPanel ⟨0⟩ true = []) :=
  revealWebview_movesViaCurrentGroup (fun g0 => if g0 == 2 then some 10 else none)
    mdPanel ⟨0⟩ true (by decide)

/-- C8: disposing the handle returned by `registerReviver` removes exactly
that reviver from the registry (by identity, preserving the others and their
order) and leaves the revival queue untouched; afterwards `canRevive` answers
`true` only through one of the surviving revivers. -/
theorem disposeReviver_spec (s : ServiceState) (r : Reviver) :
    (disposeReviver s r).awaitingRevival = s.awaitingRevival ∧
    (∀ r0 ∈ (disposeReviver s r).revivers, r0.rid ≠ r.rid) ∧
    (∀ r0 ∈ s.revivers, r0.rid ≠ r.rid → r0 ∈ (disposeReviver s r).revivers) ∧
    List.Sublist (disposeReviver s r).revivers s.revivers ∧
    (∀ w, WebviewEditorService.canRevive (disposeReviver s r) w = true ↔
        ∃ r0 ∈ s.revivers, r0.rid ≠ r.rid ∧ r0.canRevive w = true) := by
  refine ⟨rfl, ?_, ?_, List.filter_sublist s.revivers, ?_⟩
  · intro r0 hr0
    simp only [disposeReviver, List.mem_filter, Bool.not_eq_eq_eq_not,
      Bool.not_true, beq_eq_false_iff_ne, ne_eq] at hr0
    exact hr0.2
  · intro r0 hr0 hne
    simp only [disposeReviver, List.mem_filter, Bool.not_eq_eq_eq_not,
      Bool.not_true, beq_eq_false_iff_ne, ne_eq]
    exact ⟨hr0, hne⟩
  · intro w
    rw [WebviewEditorService.canRevive, canReviveList_eq_any, List.any_eq_true]
    constructor
    · rintro ⟨r0, hr0, hc⟩
      simp only [disposeReviver, List.mem_filter, Bool.not_eq_eq_eq_not,
        Bool.not_true, beq_eq_false_iff_ne, ne_eq] at hr0
      exact ⟨r0, hr0.1, hr0.2, hc⟩
    · rintro ⟨r0, hr0, hne, hc⟩
      refine ⟨r0, ?_, hc⟩
      simp only [disposeReviver, List.mem_filter, Bool.not_eq_eq_eq_not,
        Bool.not_true, beq_eq_false_iff_ne, ne_eq]
      exact ⟨hr0, hne⟩

/-- Closed instance of `disposeReviver_spec`: dropping the markdown reviver
from a two-reviver registry keeps the queue intact, and `canRevive` for the
markdown panel now answers through no surviving reviver. -/
theorem disposeReviver_spec_witness :
    (disposeReviver ⟨[mdReviver, otherReviver], [mdEntry]⟩ mdReviver).awaitingRevival
      = [mdEntry] ∧
    WebviewEditorService.canRevive
      (disposeReviver ⟨[mdReviver, otherReviver], [mdEntry]⟩ mdReviver) mdPanel
      = false := by
  refine ⟨(disposeReviver_spec ⟨[mdReviver, otherReviver], [mdEntry]⟩ mdReviver).1, ?_⟩
  by_contra hne
  have ht : WebviewEditorService.canRevive
      (disposeReviver ⟨[mdReviver, otherReviver], [mdEntry]⟩ mdReviver) mdPanel
      = true := by
    cases hb : WebviewEditorService.canRevive
        (disposeReviver ⟨[mdReviver, otherReviver], [mdEntry]⟩ mdReviver) mdPanel
    · exact absurd hb hne
    · rfl
  have hex :=
    ((disposeReviver_spec ⟨[mdReviver, otherReviver], [mdEntry]⟩ mdReviver).2.2.2.2
      mdPanel).mp ht
  rcases hex with ⟨r0, hr0, hrid, hc⟩
  rcases List.mem_cons.mp hr0 with h1 | h2
  · exact hrid (by rw [h1])
  · rw [List.mem_singleton.mp h2] at hc
    exact absurd hc (by decide)

/-- C1: `registerReviver(r)` removes from the queue exactly the entries whose
panel the new reviver accepts, dispatching each removed entry's reconstruction
in queue order paired with its completion signal, and keeps every
non-matching entry in its original relative order (the new queue is a sublist
of the old). When the reviver matches no queued entry, the queue is unchanged
and nothing is dispatched. -/
theorem registerReviver_drains_matching (s : ServiceState) (r : Reviver) :
    List.Sublist (registerReviver s r).1.awaitingRevival s.awaitingRevival ∧
    (∀ e, e ∈ (registerReviver s r).1.awaitingRevival ↔
        e ∈ s.awaitingRevival ∧ r.canRevive e.input = false) ∧
    (registerReviver s r).2 =
      (s.awaitingRevival.filter (fun x => r.canRevive x.input)).map
        (fun x => Effect.queueDispatch r.rid x.input x.resolveId) ∧
    ((∀ e ∈ s.awaitingRevival, r.canRevive e.input = false) →
        (registerReviver s r).1.awaitingRevival = s.awaitingRevival ∧
        (registerReviver s r).2 = []) := by
  refine ⟨List.filter_sublist s.awaitingRevival, ?_, rfl, ?_⟩
  · intro e
    simp [registerReviver, List.mem_filter]
  · intro h
    constructor
    · show List.filter _ s.awaitingRevival = s.awaitingRevival
      rw [List.filter_eq_self]
      intro e he
      simp [h e he]
    · show List.map _ (List.filter _ s.awaitingRevival) = []
      rw [List.map_eq_nil_iff, List.filter_eq_nil_iff]
      intro e he
      simp [h e he]

/-- Closed instance of `registerReviver_drains_matching`: a non-matching
registration leaves the one-entry queue intact and dispatches nothing; the
matching one empties it and dispatches the entry with its signal. -/
theorem registerReviver_drains_matching_witness :
    (registerReviver exState otherReviver).1.awaitingRevival = [mdEntry] ∧
    (registerReviver exState otherReviver).2 = [] ∧
    (registerReviver exState mdReviver).1.awaitingRevival = [] ∧
    (registerReviver exState mdReviver).2 =
      [Effect.queueDispatch 7 mdPanel 11] := by
  have h := (registerReviver_drains_matching exState otherReviver).2.2.2
    (by intro e he; rcases List.mem_singleton.mp he with rfl; decide)
  exact ⟨h.1, h.2, by decide, by decide⟩

/-- C10: the two filter passes of `registerReviver` agree because the
capability check is a pure function of the panel in this embedding: an entry
leaves the queue exactly when its dispatch appears in the emitted effects, no
surviving entry satisfies the new reviver's check, and entries are conserved
(old length = new length + dispatch count). -/
theorem registerReviver_twoPass_agree (s : ServiceState) (r : Reviver) :
    (registerReviver s r).1.awaitingRevival =
      s.awaitingRevival.filter (fun x => !(r.canRevive x.input)) ∧
    (registerReviver s r).2 =
      (s.awaitingRevival.filter (fun x => r.canRevive x.input)).map
        (fun x => Effect.queueDispatch r.rid x.input x.resolveId) ∧
    (∀ e ∈ s.awaitingRevival,
        (e ∉ (registerReviver s r).1.awaitingRevival ↔
          Effect.queueDispatch r.rid e.input e.resolveId ∈
            (registerReviver s r).2)) ∧
    (∀ e ∈ (registerReviver s r).1.awaitingRevival,
        r.canRevive e.input = false) ∧
    s.awaitingRevival.length =
      (registerReviver s r).1.awaitingRevival.length +
        (registerReviver s r).2.length := by
  refine ⟨rfl, rfl, ?_, ?_, ?_⟩
  · intro e he
    constructor
    · intro hnot
      have hp : r.canRevive e.input = true := by
        cases hb : r.canRevive e.input
        · exact absurd
            ((List.mem_filter.mpr ⟨he, by simp [hb]⟩ :
              e ∈ s.awaitingRevival.filter (fun x => !(r.canRevive x.input))))
            hnot
        · rfl
      exact List.mem_map.mpr
        ⟨e, List.mem_filter.mpr ⟨he, hp⟩, rfl⟩
    · intro hd hmem
      rcases List.mem_map.mp hd with ⟨x, hx, hmk⟩
      have hx2 := (List.mem_filter.mp hx).2
      injection hmk with hr0 h1 h2
      have hmem2 := (List.mem_filter.mp hmem).2
      rw [h1] at hx2
      simp [hx2] at hmem2
  · intro e he
    have h2 := (List.mem_filter.mp he).2
    simp at h2
    exact h2
  · have hsplit := countP_bool_split s.awaitingRevival (fun _ => true)
      (fun x => r.canRevive x.input)
    simp only [Bool.true_and] at hsplit
    rw [List.countP_eq_length_filter, List.countP_eq_length_filter,
      List.countP_true] at hsplit
    show s.awaitingRevival.length =
      (List.filter _ s.awaitingRevival).length +
        (List.map _ (List.filter _ s.awaitingRevival)).length
    rw [List.length_map]
    omega

/-- Closed instance of `registerReviver_twoPass_agree` on a two-entry queue:
the matching entry is dispatched and gone, the other survives, and lengths
add up. -/
theorem registerReviver_twoPass_agree_witness :
    (registerReviver ⟨[], [mdEntry, ⟨⟨2, "other.type", "O", none⟩, 12⟩]⟩
        mdReviver).1.awaitingRevival = [⟨⟨2, "other.type", "O", none⟩, 12⟩] ∧
    (registerReviver ⟨[], [mdEntry, ⟨⟨2, "other.type", "O", none⟩, 12⟩]⟩
        mdReviver).2 = [Effect.queueDispatch 7 mdPanel 11] ∧
    (2 : Nat) =
      (registerReviver ⟨[], [mdEntry, ⟨⟨2, "other.type", "O", none⟩, 12⟩]⟩
          mdReviver).1.awaitingRevival.length +
        (registerReviver ⟨[], [mdEntry, ⟨⟨2, "other.type", "O", none⟩, 12⟩]⟩
            mdReviver).2.length := by
  refine ⟨by decide, by decide, ?_⟩
  exact (registerReviver_twoPass_agree
    ⟨[], [mdEntry, ⟨⟨2, "other.type", "O", none⟩, 12⟩]⟩ mdReviver).2.2.2.2

/-- C5: `tryRevive` walks the registered revivers in insertion order: when
`l₁ ++ r :: l₂` decomposes the registry with every reviver of `l₁` rejecting
the panel and `r` accepting it, exactly `r`'s reconstruction is awaited and
the call reports success, consulting no later reviver; when every reviver
rejects the panel it reports failure with no effect. In both cases the
service state (registry and queue) passes through unchanged. -/
theorem tryRevive_firstMatchWins (s : ServiceState) (w : WebviewEditorInput) :
    (WebviewEditorService.tryRevive s w).2.2 = s ∧
    ((∀ r ∈ s.revivers, r.canRevive w = false) →
        WebviewEditorService.tryRevive s w = (false, [], s)) ∧
    (∀ l₁ r l₂, s.revivers = l₁ ++ r :: l₂ →
        (∀ r0 ∈ l₁, r0.canRevive w = false) → r.canRevive w = true →
        WebviewEditorService.tryRevive s w =
          (true, [Effect.awaitRevive r.rid w], s)) := by
  refine ⟨rfl, ?_, ?_⟩
  · intro h
    show (_, _, _) = _
    rw [tryReviveList_of_none s.revivers w h]
  · intro l₁ r l₂ hdec h₁ hr
    show (_, _, _) = _
    rw [hdec, tryReviveList_first l₁ r l₂ w h₁ hr]

/-- Closed instance of `tryRevive_firstMatchWins`: with a rejecting reviver
registered ahead of an accepting one, the accepting one alone is awaited;
the state (shown through its queue) is untouched. -/
theorem tryRevive_firstMatchWins_witness :
    WebviewEditorService.tryRevive ⟨[otherReviver, mdReviver], [mdEntry]⟩
        mdPanel =
      (true, [Effect.awaitRevive 7 mdPanel],
        (⟨[otherReviver, mdReviver], [mdEntry]⟩ : ServiceState)) :=
  (tryRevive_firstMatchWins ⟨[otherReviver, mdReviver], [mdEntry]⟩ mdPanel).2.2
    [otherReviver] mdReviver [] rfl
    (by intro r0 h0; rcases List.mem_singleton.mp h0 with rfl; decide)
    (by decide)

/-- C6: when the queue holds exactly one entry for panel `P` (by identity and
by value) and both `rA` and `rB` accept `P`, registering `rA` and then `rB`
dispatches `P`'s reconstruction exactly once during `rA`'s registration — and
every dispatch of that registration is attributed to `rA` — while `rB`'s
registration dispatches nothing for `P`. -/
theorem registerTwo_firstWins (s : ServiceState) (P : WebviewEditorInput)
    (rA rB : Reviver)
    (hone : s.awaitingRevival.countP (fun e => e.input == P) = 1)
    (hpid : s.awaitingRevival.countP (fun e => e.input.pid == P.pid) = 1)
    (hA : rA.canRevive P = true) ( _hB : rB.canRevive P = true) :
    (registerReviver s rA).2.countP (isDispatchForPanel P.pid) = 1 ∧
    (∀ e ∈ (registerReviver s rA).2, ∃ inp rsv,
        e = Effect.queueDispatch rA.rid inp rsv) ∧
    (registerReviver (registerReviver s rA).1 rB).2.countP
        (isDispatchForPanel P.pid) = 0 := by
  have hmapA : (registerReviver s rA).2.countP (isDispatchForPanel P.pid) =
      (s.awaitingRevival.filter (fun x => rA.canRevive x.input)).countP
        (fun e => e.input.pid == P.pid) := by
    show ((s.awaitingRevival.filter _).map _).countP _ = _
    rw [List.countP_map]
    apply List.countP_congr
    intro e _
    simp [isDispatchForPanel, Function.comp]
  have hfiltA : (s.awaitingRevival.filter
        (fun x => rA.canRevive x.input)).countP
        (fun e => e.input.pid == P.pid) =
      s.awaitingRevival.countP
        (fun e => (e.input.pid == P.pid) && rA.canRevive e.input) := by
    rw [List.countP_filter]
  have hge : 1 ≤ s.awaitingRevival.countP
      (fun e => (e.input.pid == P.pid) && rA.canRevive e.input) := by
    rw [← hone]
    apply List.countP_mono_left
    intro x _ hx
    have hxe : x.input = P := by simpa using hx
    simp [hxe, hA]
  have hle : s.awaitingRevival.countP
      (fun e => (e.input.pid == P.pid) && rA.canRevive e.input) ≤ 1 := by
    rw [← hpid]
    apply List.countP_mono_left
    intro x _ hx
    exact (Bool.and_eq_true_iff.mp hx).1
  have hAone : s.awaitingRevival.countP
      (fun e => (e.input.pid == P.pid) && rA.canRevive e.input) = 1 :=
    Nat.le_antisymm hle hge
  have hsplit := countP_bool_split s.awaitingRevival
    (fun e => e.input.pid == P.pid) (fun e => rA.canRevive e.input)
  refine ⟨by rw [hmapA, hfiltA, hAone], ?_, ?_⟩
  · intro e he
    rcases List.mem_map.mp he with ⟨x, _, hmk⟩
    exact ⟨x.input, x.resolveId, hmk.symm⟩
  · have hrem : (registerReviver s rA).1.awaitingRevival.countP
        (fun e => e.input.pid == P.pid) = 0 := by
      show (s.awaitingRevival.filter _).countP _ = 0
      rw [List.countP_filter]
      omega
    have hmapB : (registerReviver (registerReviver s rA).1 rB).2.countP
        (isDispatchForPanel P.pid) =
        ((registerReviver s rA).1.awaitingRevival.filter
            (fun x => rB.canRevive x.input)).countP
          (fun e => e.input.pid == P.pid) := by
      show (((registerReviver s rA).1.awaitingRevival.filter _).map _).countP _ = _
      rw [List.countP_map]
      apply List.countP_congr
      intro e _
      simp [isDispatchForPanel, Function.comp]
    rw [hmapB, List.countP_filter]
    have hb : (registerReviver s rA).1.awaitingRevival.countP
        (fun e => (e.input.pid == P.pid) && rB.canRevive e.input) ≤
        (registerReviver s rA).1.awaitingRevival.countP
          (fun e => e.input.pid == P.pid) := by
      apply List.countP_mono_left
      intro x _ hx
      exact (Bool.and_eq_true_iff.mp hx).1
    omega

/-- Closed instance of `registerTwo_firstWins`: `mdReviver` then `mdReviverB`
over a queue holding only the markdown panel. -/
theorem registerTwo_firstWins_witness :
    (registerReviver exState mdReviver).2.countP
        (isDispatchForPanel mdPanel.pid) = 1 ∧
    (registerReviver (registerReviver exState mdReviver).1 mdReviverB).2.countP
        (isDispatchForPanel mdPanel.pid) = 0 := by
  have h := registerTwo_firstWins exState mdPanel mdReviver mdReviverB
    (by decide) (by decide) (by decide) (by decide)
  exact ⟨h.1, h.2.2⟩

theorem tryReviveList_no_queueDispatch (rs : List Reviver)
    (w : WebviewEditorInput) (p : Nat) :
    (tryReviveList rs w).2.countP (isDispatchForPanel p) = 0 := by
  induction rs with
  | nil => rfl
  | cons r rest ih =>
    cases h : r.canRevive w
    · simpa only [tryReviveList, h, Bool.false_eq_true, if_false] using ih
    · simp only [tryReviveList, h, if_true]
      simp [List.countP_cons, isDispatchForPanel]

theorem revealWebview_no_queueDispatch (gg : Nat → Option Nat)
    (w : WebviewEditorInput) (G : IEditorGroup) (f : Bool) (p : Nat) :
    (revealWebview gg w G f).countP (isDispatchForPanel p) = 0 := by
  unfold revealWebview
  split
  · simp [List.countP_cons, isDispatchForPanel]
  · split
    · rfl
    · split
      · rfl
      · simp [List.countP_cons, isDispatchForPanel]

theorem reachable_sysInv (σ : Sys) (h : Reachable σ) : SysInv σ := by
  induction h with
  | init =>
    intro p
    simp [initialSys, queueCount, dispatchCount]
  | register σ r hσ ih =>
    intro p
    obtain ⟨hle, hpop⟩ := ih p
    have hq : queueCount (registerReviver σ.svc r).1.awaitingRevival p =
        σ.svc.awaitingRevival.countP
          (fun e => (e.input.pid == p) && !(r.canRevive e.input)) := by
      unfold queueCount
      show (σ.svc.awaitingRevival.filter _).countP _ = _
      rw [List.countP_filter]
    have hd : dispatchCount (registerReviver σ.svc r).2 p =
        σ.svc.awaitingRevival.countP
          (fun e => (e.input.pid == p) && r.canRevive e.input) := by
      unfold dispatchCount
      show ((σ.svc.awaitingRevival.filter _).map _).countP _ = _
      rw [List.countP_map, List.countP_filter]
      apply List.countP_congr
      intro e _
      simp [isDispatchForPanel, Function.comp]
    have hsplit := countP_bool_split σ.svc.awaitingRevival
      (fun e => e.input.pid == p) (fun e => r.canRevive e.input)
    have happ : dispatchCount (σ.trace ++ (registerReviver σ.svc r).2) p =
        dispatchCount σ.trace p + dispatchCount (registerReviver σ.svc r).2 p := by
      unfold dispatchCount
      rw [List.countP_append]
    have hqc : queueCount σ.svc.awaitingRevival p =
        σ.svc.awaitingRevival.countP (fun e => e.input.pid == p) := rfl
    constructor
    · rw [happ, hq, hd] at *
      omega
    · intro hpos
      apply hpop
      rw [happ, hq, hd] at hpos
      omega
  | deregister σ r hσ ih =>
    intro p
    exact ih p
  | populate σ w rsv hσ hw ih =>
    intro p
    obtain ⟨hle, hpop⟩ := ih p
    have htr : (reviveCallback σ.svc w rsv).2.1.countP (isDispatchForPanel p) = 0 := by
      unfold reviveCallback
      cases h1 : (tryReviveList σ.svc.revivers w).1
      · simpa only [h1, Bool.false_eq_true, if_false] using
          tryReviveList_no_queueDispatch σ.svc.revivers w p
      · simpa only [h1, if_true] using
          tryReviveList_no_queueDispatch σ.svc.revivers w p
    have happ : dispatchCount (σ.trace ++ (reviveCallback σ.svc w rsv).2.1) p =
        dispatchCount σ.trace p := by
      unfold dispatchCount
      rw [List.countP_append]
      unfold dispatchCount at htr
      omega
    cases h1 : (tryReviveList σ.svc.revivers w).1
    · have hst : (reviveCallback σ.svc w rsv).1.awaitingRevival =
          σ.svc.awaitingRevival ++ [⟨w, rsv⟩] := by
        simp [reviveCallback, h1]
      have hqapp : queueCount (reviveCallback σ.svc w rsv).1.awaitingRevival p =
          queueCount σ.svc.awaitingRevival p +
            (if w.pid == p then 1 else 0) := by
        rw [hst]
        unfold queueCount
        rw [List.countP_append, List.countP_singleton]
      by_cases hp : w.pid = p
      · have hzero : queueCount σ.svc.awaitingRevival p +
            dispatchCount σ.trace p = 0 := by
          by_contra hnz
          exact hw (hp ▸ hpop (by omega))
        constructor
        · rw [hqapp, happ]
          simp [hp]
          omega
        · intro _
          exact List.mem_append_right _ (by simp [hp])
      · have hif : (if w.pid == p then 1 else 0) = 0 := by
          simp [hp]
        constructor
        · rw [hqapp, happ, hif]
          omega
        · intro hpos
          rw [hqapp, happ, hif] at hpos
          exact List.mem_append_left _ (hpop (by omega))
    · have hst : (reviveCallback σ.svc w rsv).1 = σ.svc := by
        simp [reviveCallback, h1]
      constructor
      · rw [hst, happ]
        exact hle
      · intro hpos
        rw [hst, happ] at hpos
        exact List.mem_append_left _ (hpop hpos)
  | create σ vt ti g f pid hσ ih =>
    intro p
    obtain ⟨hle, hpop⟩ := ih p
    have happ : dispatchCount
        (σ.trace ++ (createWebview σ.svc vt ti g f pid).2.1) p =
        dispatchCount σ.trace p := by
      unfold dispatchCount
      rw [List.countP_append]
      simp [createWebview, List.countP_cons, isDispatchForPanel]
    exact ⟨by rw [happ]; exact hle, fun hpos => hpop (by rw [happ] at hpos; exact hpos)⟩
  | reveal σ gg w G f hσ ih =>
    intro p
    obtain ⟨hle, hpop⟩ := ih p
    have happ : dispatchCount (σ.trace ++ revealWebview gg w G f) p =
        dispatchCount σ.trace p := by
      unfold dispatchCount
      rw [List.countP_append]
      have := revealWebview_no_queueDispatch gg w G f p
      omega
    exact ⟨by rw [happ]; exact hle, fun hpos => hpop (by rw [happ] at hpos; exact hpos)⟩

/-- C3: in every state reachable by the service's operations (with the
external contract that a panel's deferred-population callback fires at most
once), the revival queue holds at most one entry per panel identity, and the
whole trace contains at most one from-queue reconstruction dispatch per panel
identity — a matched entry leaves the queue in the same synchronous step that
emits its dispatch, so no queued revival is ever dispatched twice. -/
theorem revivalQueue_unique_and_once (σ : Sys) (h : Reachable σ) (p : Nat) :
    queueCount σ.svc.awaitingRevival p ≤ 1 ∧
    dispatchCount σ.trace p ≤ 1 := by
  have hinv := reachable_sysInv σ h p
  exact ⟨by omega, by omega⟩

/-- Closed instance of `revivalQueue_unique_and_once` at the state reached by
one deferred-population callback on the empty service. -/
theorem revivalQueue_unique_and_once_witness :
    queueCount (reviveCallback ⟨[], []⟩ mdPanel 11).1.awaitingRevival
      mdPanel.pid ≤ 1 ∧
    dispatchCount (reviveCallback ⟨[], []⟩ mdPanel 11).2.1 mdPanel.pid ≤ 1 :=
  revivalQueue_unique_and_once
    ⟨(reviveCallback ⟨[], []⟩ mdPanel 11).1, [mdPanel.pid],
      (reviveCallback ⟨[], []⟩ mdPanel 11).2.1⟩
    (Reachable.populate initialSys mdPanel 11 Reachable.init (by simp [initialSys]))
    mdPanel.pid
